import Mathlib

/-!
Verification of the mujinplcpy PLC orchestration library.

This file shallowly embeds the core data structures and operations of the
repository (src/python/mujinplc) in Lean 4 and proves or refutes the
specification claims about them:

* `plcmemory.py` — the key-value store `PLCMemory` with `Read`, `Write`
  and observer notification;
* `plccontroller.py` — the typed accessors `GetString` / `GetBoolean` /
  `GetInteger`, the heartbeat bookkeeping in `_Enqueue` and `IsConnected`;
* `plcproductioncycle.py` — the main production-cycle state machine, the
  order-cycle `Finishing` step, the queue-order construction and the
  candidate selection (`_ListOrderCandidates` / `_GetOrderCandidate`);
* `plcproductionrunner.py` — the signal batch written by `QueueOrder`.

Python object identity (`is`) is modelled by giving each `PLCOrder` and
`PLCContainer` a unique numeric `uid`; references are stored as uids.
Python's monotonic clock values are modelled as rationals.
-/

namespace MujinPLC

/-- `PLCMemory.ValueType`: `typing.Optional[typing.Union[str, int, bool]]` —
a tagged union of null, boolean, integer and string. -/
inductive Value where
  | null : Value
  | boolean : Bool → Value
  | integer : Int → Value
  | string : String → Value
deriving Repr, DecidableEq

/-- Python `==` on the values that can live in PLC memory.  In Python,
`bool` is a subclass of `int` and `False == 0`, `True == 1` hold, while
`0 == None`, `'' == None`, `'' == 0` and `False == None` are all false. -/
def pyEq : Value → Value → Bool
  | .null, .null => true
  | .boolean a, .boolean b => a == b
  | .boolean a, .integer n => (if a then (1 : Int) else 0) == n
  | .integer n, .boolean a => n == (if a then (1 : Int) else 0)
  | .integer m, .integer n => m == n
  | .string s, .string t => s == t
  | _, _ => false

/-- `PLCMemory._entries`: the dictionary from signal name to stored value. -/
abbrev Entries := String → Option Value

def emptyEntries : Entries := fun _ => none

/-- `PLCMemory.Read`: for each requested key, include its stored value;
keys absent from memory are omitted from the result. -/
def readMem (entries : Entries) (keys : List String) : List (String × Value) :=
  keys.filterMap fun k => (entries k).map fun v => (k, v)

/-- The `modifications` dict computed inside `PLCMemory.Write`: an entry of
the written batch is skipped iff the key is already present and the
supplied value compares equal (Python `==`) to the stored value. -/
def computeModifications (entries : Entries) (keyvalues : List (String × Value)) :
    List (String × Value) :=
  keyvalues.filter fun kv =>
    match entries kv.1 with
    | some stored => !pyEq kv.2 stored
    | none => true

/-- `self._entries.update(modifications)`. -/
def applyModifications (entries : Entries) (mods : List (String × Value)) : Entries :=
  mods.foldl (fun e kv => fun k => if k = kv.1 then some kv.2 else e k) entries

/-- `PLCMemory.Write`: compute the modifications, apply them, and (still
inside the same critical section) notify every observer — one notification
carrying the modifications, sent only when the modifications dict is
non-empty.  The second component is that notification (`none` when no
notification is fanned out). -/
def writeMem (entries : Entries) (keyvalues : List (String × Value)) :
    Entries × Option (List (String × Value)) :=
  let mods := computeModifications entries keyvalues
  (applyModifications entries mods, if mods.isEmpty then none else some mods)

theorem pyEq_refl (v : Value) : pyEq v v = true := by
  cases v <;> simp [pyEq]

/-- A memory whose `"testSignal"` entry stores integer `0`. -/
def entriesWithZero : Entries :=
  fun k => if k = "testSignal" then some (.integer 0) else none

/-- C1 counterexample: the claim says writing boolean `false` to a key
currently storing integer `0` produces a change entry that is notified to
observers.  In the code, Python `==` identifies `False` with `0`, so the
entry is filtered out and no notification is produced at all. -/
theorem writeFalse_overZero_notifiesNothing :
    entriesWithZero "testSignal" = some (.integer 0) ∧
    (writeMem entriesWithZero [("testSignal", .boolean false)]).2 = none := by
  constructor
  · rfl
  · rfl

/-- C1 (amended): the change-filtering comparison is Python value equality,
under which boolean `false` equals integer `0` (and `true` equals `1`)
while integer `0` remains distinct from null.  Writing `false` over a
stored `0` produces no change entry; writing `0` over a stored null does
produce one; and writing a key's exact stored value produces none. -/
theorem write_filtering_uses_python_equality (entries : Entries) (k : String) :
    (entries k = some (.integer 0) →
      (writeMem entries [(k, .boolean false)]).2 = none) ∧
    (entries k = some .null →
      (writeMem entries [(k, .integer 0)]).2 = some [(k, .integer 0)]) ∧
    (∀ v, entries k = some v → (writeMem entries [(k, v)]).2 = none) := by
  refine ⟨fun h => ?_, fun h => ?_, fun v h => ?_⟩
  · simp [writeMem, computeModifications, h, pyEq]
  · simp [writeMem, computeModifications, h, pyEq]
  · simp [writeMem, computeModifications, h, pyEq_refl]

/-- A memory whose `"special"` entry stores null. -/
def entriesWithNull : Entries :=
  fun k => if k = "special" then some .null else none

/-- C1 witness: instantiating the amended claim at concrete memories —
writing `false` over a stored `0` is silent, while writing `0` over a
stored null is notified. -/
theorem write_filtering_witness :
    (writeMem entriesWithZero [("testSignal", .boolean false)]).2 = none ∧
    (writeMem entriesWithNull [("special", .integer 0)]).2 =
      some [("special", .integer 0)] :=
  ⟨(write_filtering_uses_python_equality entriesWithZero "testSignal").1 rfl,
   (write_filtering_uses_python_equality entriesWithNull "special").2.1 rfl⟩

/-- C2 counterexample: the claim says every `Write(B)` delivers exactly one
notification to each observer.  A write whose every entry equals the
stored value produces an empty modifications dict and the code then skips
the fan-out entirely: zero notifications are delivered. -/
theorem write_unchanged_notifiesNothing :
    entriesWithZero "testSignal" = some (.integer 0) ∧
    (writeMem entriesWithZero [("testSignal", .integer 0)]).2 = none := by
  constructor
  · rfl
  · rfl

/-- C2 (amended): every `Write(B)` delivers at most one notification to
each observer: exactly one — whose entries are a subset of `B` and are
exactly the entries whose effective value changed, a previously absent key
always counting as changed — when at least one entry changed, and none when
no entry changed.  (Delivery happens in the same atomic step that applies
the delta: `writeMem` returns the new entries and the notification
together.) -/
theorem write_notification_characterization (entries : Entries)
    (keyvalues : List (String × Value)) :
    (∀ mods, (writeMem entries keyvalues).2 = some mods →
      mods ≠ [] ∧
      (∀ p, p ∈ mods → p ∈ keyvalues) ∧
      (∀ p, p ∈ keyvalues →
        (p ∈ mods ↔ ∀ v, entries p.1 = some v → pyEq p.2 v = false))) ∧
    ((writeMem entries keyvalues).2 = none ↔
      ∀ p, p ∈ keyvalues → ∃ v, entries p.1 = some v ∧ pyEq p.2 v = true) := by
  have hmem : ∀ p, p ∈ computeModifications entries keyvalues ↔
      p ∈ keyvalues ∧ (∀ v, entries p.1 = some v → pyEq p.2 v = false) := by
    intro p
    simp only [computeModifications, List.mem_filter]
    constructor
    · rintro ⟨hp, hcond⟩
      refine ⟨hp, fun v hv => ?_⟩
      rw [hv] at hcond
      simpa using hcond
    · rintro ⟨hp, hcond⟩
      refine ⟨hp, ?_⟩
      cases hv : entries p.1 with
      | none => simp
      | some v => simpa using hcond v hv
  have hnil : computeModifications entries keyvalues = [] ↔
      ∀ p, p ∈ keyvalues → ∃ v, entries p.1 = some v ∧ pyEq p.2 v = true := by
    rw [List.eq_nil_iff_forall_not_mem]
    constructor
    · intro h p hp
      have hne := h p
      rw [hmem p] at hne
      push_neg at hne
      obtain ⟨v, hv, hq⟩ := hne hp
      exact ⟨v, hv, by simpa using hq⟩
    · intro h p hp
      rw [hmem p] at hp
      obtain ⟨hpk, hcond⟩ := hp
      obtain ⟨v, hv, hq⟩ := h p hpk
      have hfalse := hcond v hv
      rw [hfalse] at hq
      exact Bool.false_ne_true hq
  constructor
  · intro mods hmods
    simp only [writeMem] at hmods
    by_cases hemp : computeModifications entries keyvalues = []
    · simp [hemp] at hmods
    · have hb : (computeModifications entries keyvalues).isEmpty = false := by
        simpa [List.isEmpty_iff] using hemp
      rw [hb] at hmods
      simp only [Bool.false_eq_true, if_false, Option.some.injEq] at hmods
      subst hmods
      refine ⟨hemp, fun p hp => ((hmem p).1 hp).1, fun p hp => ?_⟩
      constructor
      · intro hpm
        exact ((hmem p).1 hpm).2
      · intro hcond
        exact (hmem p).2 ⟨hp, hcond⟩
  · simp only [writeMem]
    by_cases hemp : computeModifications entries keyvalues = []
    · have hb : (computeModifications entries keyvalues).isEmpty = true := by
        simp [hemp]
      rw [hb]
      simpa using hnil.1 hemp
    · have hb : (computeModifications entries keyvalues).isEmpty = false := by
        simpa [List.isEmpty_iff] using hemp
      rw [hb]
      simp only [Bool.false_eq_true, if_false]
      constructor
      · intro h
        exact absurd h (by simp)
      · intro hall
        exact absurd (hnil.2 hall) hemp

/-- C2 witness: a write of a null value to an absent key is notified, and
the notified entry indeed comes from the written batch. -/
theorem write_notification_witness :
    ("b", Value.null) ∈ ([("b", Value.null)] : List (String × Value)) :=
  ((write_notification_characterization emptyEntries [("b", Value.null)]).1
    [("b", Value.null)] rfl).2.1 ("b", Value.null) (by
      have : (writeMem emptyEntries [("b", Value.null)]).2 =
          some [("b", Value.null)] := rfl
      simp)

/-- C9: `Write(Read(keys))` is a no-op at the memory layer — the entries
are unchanged and no observer notification is produced, because every
read-back entry compares equal to the stored value and is filtered out of
the modifications. -/
theorem write_read_roundtrip_noop (entries : Entries) (keys : List String) :
    writeMem entries (readMem entries keys) = (entries, none) := by
  have hmods : computeModifications entries (readMem entries keys) = [] := by
    rw [List.eq_nil_iff_forall_not_mem]
    intro p hp
    simp only [computeModifications, List.mem_filter] at hp
    obtain ⟨hpmem, hcond⟩ := hp
    simp only [readMem, List.mem_filterMap, Option.map_eq_some'] at hpmem
    obtain ⟨k, _, v, hv, rfl⟩ := hpmem
    rw [hv] at hcond
    simp [pyEq_refl] at hcond
  simp [writeMem, hmods, applyModifications]

/-!
## Controller typed accessors (`plccontroller.py`)

`PLCController.Get(key, default)` is `self._state.get(key, defaultValue)`;
the typed accessors then apply an `isinstance` check and fall back to the
default on mismatch.  In Python `bool` is a subclass of `int`, so
`isinstance(value, int)` accepts booleans: `GetInteger` returns a stored
boolean unchanged (numerically `True` is `1` and `False` is `0`, modelled
here by returning that integer).
-/

/-- `PLCController.GetString`: stored string, else the default. -/
def getString (state : Entries) (k : String) (d : String) : String :=
  match state k with
  | some (.string s) => s
  | some _ => d
  | none => d

/-- `PLCController.GetBoolean`: stored boolean, else the default
(`isinstance(value, bool)` rejects integers, strings and null). -/
def getBoolean (state : Entries) (k : String) (d : Bool) : Bool :=
  match state k with
  | some (.boolean b) => b
  | some _ => d
  | none => d

/-- `PLCController.GetInteger`: stored integer, a stored boolean (which
passes `isinstance(value, int)` and is returned, numerically 1 or 0), else
the default. -/
def getInteger (state : Entries) (k : String) (d : Int) : Int :=
  match state k with
  | some (.integer n) => n
  | some (.boolean b) => if b then 1 else 0
  | some _ => d
  | none => d

/-- A controller snapshot whose `"sig"` entry stores boolean `true`. -/
def boolState : Entries :=
  fun k => if k = "sig" then some (.boolean true) else none

/-- C4 counterexample: the claim says `GetInteger` returns the default when
the stored value is a boolean.  In the code `isinstance(True, int)` holds,
so `GetInteger("sig", 7)` on a stored `True` returns the stored boolean
(numerically 1), not the default 7. -/
theorem getInteger_on_boolean_returns_value :
    boolState "sig" = some (.boolean true) ∧
    getInteger boolState "sig" 7 = 1 ∧ (1 : Int) ≠ 7 := by
  refine ⟨rfl, rfl, by decide⟩

/-- C4 (amended): `GetString` and `GetBoolean` return the stored value
exactly when its runtime type matches and the default otherwise;
`GetInteger` returns a stored integer, returns a stored boolean as well
(numerically 1 or 0, because `bool` is a subtype of `int` in Python), and
returns the default only when the stored value is neither an integer nor a
boolean (string, null, or key absent). -/
theorem typed_accessors_characterization (state : Entries) (k : String)
    (ds : String) (db : Bool) (di : Int) :
    (∀ s, state k = some (.string s) → getString state k ds = s) ∧
    ((∀ s, state k ≠ some (.string s)) → getString state k ds = ds) ∧
    (∀ b, state k = some (.boolean b) → getBoolean state k db = b) ∧
    ((∀ b, state k ≠ some (.boolean b)) → getBoolean state k db = db) ∧
    (∀ n, state k = some (.integer n) → getInteger state k di = n) ∧
    (∀ b, state k = some (.boolean b) →
      getInteger state k di = if b then 1 else 0) ∧
    ((∀ n, state k ≠ some (.integer n)) → (∀ b, state k ≠ some (.boolean b)) →
      getInteger state k di = di) := by
  refine ⟨fun s h => by simp [getString, h],
    fun h => ?_,
    fun b h => by simp [getBoolean, h],
    fun h => ?_,
    fun n h => by simp [getInteger, h],
    fun b h => by simp [getInteger, h],
    fun hn hb => ?_⟩
  · cases hv : state k with
    | none => simp [getString, hv]
    | some v =>
      cases v with
      | string s => exact absurd hv (h s)
      | null => simp [getString, hv]
      | boolean b => simp [getString, hv]
      | integer n => simp [getString, hv]
  · cases hv : state k with
    | none => simp [getBoolean, hv]
    | some v =>
      cases v with
      | boolean b => exact absurd hv (h b)
      | null => simp [getBoolean, hv]
      | string s => simp [getBoolean, hv]
      | integer n => simp [getBoolean, hv]
  · cases hv : state k with
    | none => simp [getInteger, hv]
    | some v =>
      cases v with
      | integer n => exact absurd hv (hn n)
      | boolean b => exact absurd hv (hb b)
      | null => simp [getInteger, hv]
      | string s => simp [getInteger, hv]

/-- C4 witness: instantiating the amended claim on a snapshot storing a
boolean, with a different default than the counterexample. -/
theorem typed_accessors_witness :
    getInteger boolState "sig" 5 = if true then 1 else 0 :=
  (typed_accessors_characterization boolState "sig" "" false 5).2.2.2.2.2.1
    true rfl

/-!
## Controller heartbeat (`plccontroller.py`)

`_Enqueue` records `self._lastHeartbeat = time.monotonic()` when a
non-empty modifications batch arrives and either no heartbeat signal name
is configured (Python truthiness: `None` or the empty string) or the batch
contains that signal.  `IsConnected` tests
`if self._maxHeartbeatInterval:` — Python truthiness again, so an unset
policy *or a zero interval* yields `True` unconditionally; otherwise it
requires a recorded heartbeat with `now - lastHeartbeat <
maxHeartbeatInterval`.  Clock values are modelled as rationals.
-/

/-- `PLCController.IsConnected`. -/
def isConnected (maxHeartbeatInterval : Option ℚ) (lastHeartbeat : Option ℚ)
    (now : ℚ) : Bool :=
  match maxHeartbeatInterval with
  | none => true
  | some T =>
    if T = 0 then true
    else
      match lastHeartbeat with
      | none => false
      | some t => decide (now - t < T)

/-- The heartbeat update performed by `PLCController._Enqueue`: empty
batches are dropped; otherwise `lastHeartbeat` becomes `now` when the
heartbeat signal name is unset or empty (falsy) or the batch contains it. -/
def enqueueHeartbeat (heartbeatSignal : Option String) (lastHeartbeat : Option ℚ)
    (now : ℚ) (modifications : List (String × Value)) : Option ℚ :=
  if modifications.isEmpty then lastHeartbeat
  else if (match heartbeatSignal with
           | none => true
           | some s => s == "" || modifications.any fun p => p.1 == s) then
    some now
  else lastHeartbeat

/-- C8 counterexample: the claim says that with `maxHeartbeatInterval = T`
configured and no heartbeat received yet, `IsConnected()` returns false.
Configuring `T = 0` makes `if self._maxHeartbeatInterval:` falsy, so the
code returns true even though no heartbeat was ever recorded. -/
theorem isConnected_zero_interval_no_heartbeat :
    isConnected (some 0) none 5 = true ∧
    ¬ ∃ t : ℚ, (none : Option ℚ) = some t ∧ (5 : ℚ) - t < 0 := by
  constructor
  · rfl
  · rintro ⟨t, ht, _⟩
    exact Option.noConfusion ht

/-- C8 (amended): `IsConnected()` is unconditionally true when
`maxHeartbeatInterval` is unset **or zero** (Python truthiness); with a
nonzero interval `T` it is true iff a heartbeat was recorded and
`now - lastHeartbeat < T`, and in particular false while no heartbeat has
arrived.  `lastHeartbeat` is set to the arrival time by any non-empty
batch containing the heartbeat signal, or by any non-empty batch when the
heartbeat signal name is unset or empty; empty batches and non-matching
batches leave it unchanged. -/
theorem heartbeat_characterization :
    (∀ last now : ℚ, ∀ lastOpt : Option ℚ,
      isConnected none lastOpt now = true ∧ isConnected (some 0) (some last) now = true) ∧
    (∀ T now : ℚ, ∀ last : Option ℚ, T ≠ 0 →
      (isConnected (some T) last now = true ↔
        ∃ t, last = some t ∧ now - t < T)) ∧
    (∀ T now : ℚ, T ≠ 0 → isConnected (some T) none now = false) ∧
    (∀ hbs last now, enqueueHeartbeat hbs last now [] = last) ∧
    (∀ last now mods, mods ≠ [] →
      enqueueHeartbeat none last now mods = some now) ∧
    (∀ s last now mods, mods ≠ [] →
      (mods.any fun p => p.1 == s) = true →
      enqueueHeartbeat (some s) last now mods = some now) ∧
    (∀ s last now mods, s ≠ "" →
      (mods.any fun p => p.1 == s) = false →
      enqueueHeartbeat (some s) last now mods = last) := by
  refine ⟨fun last now lastOpt => ⟨rfl, rfl⟩,
    fun T now last hT => ?_,
    fun T now hT => by simp [isConnected, hT],
    fun hbs last now => rfl,
    fun last now mods hmods => ?_,
    fun s last now mods hmods hany => ?_,
    fun s last now mods hs hany => ?_⟩
  · cases last with
    | none => simp [isConnected, hT]
    | some t => simp [isConnected, hT]
  · have hb : mods.isEmpty = false := by simpa [List.isEmpty_iff] using hmods
    simp [enqueueHeartbeat, hb]
  · have hb : mods.isEmpty = false := by simpa [List.isEmpty_iff] using hmods
    simp [enqueueHeartbeat, hb, hany]
  · by_cases hmods : mods = []
    · simp [enqueueHeartbeat, hmods]
    · have hb : mods.isEmpty = false := by simpa [List.isEmpty_iff] using hmods
      simp [enqueueHeartbeat, hb, hany, hs]

/-- C8 witness: a connected controller with a one-second policy and a
fresh heartbeat, plus a recorded heartbeat after a matching batch. -/
theorem heartbeat_witness :
    isConnected (some 1) (some 0) (1/2) = true ∧
    enqueueHeartbeat (some "hb") none 3 [("hb", Value.boolean true)] = some 3 := by
  constructor
  · exact (heartbeat_characterization.2.1 1 (1/2) (some 0) one_ne_zero).2
      ⟨0, rfl, by norm_num⟩
  · exact heartbeat_characterization.2.2.2.2.2.1 "hb" none 3
      [("hb", Value.boolean true)] (by simp) (by simp)

/-!
## Candidate selection (`plcproductioncycle.py`)

`PLCOrder` and `PLCContainer` are Python objects compared by identity
(`is`); each gets a `uid` here and references are stored as uids.  Only the
fields that the verified operations touch are modelled.
`_locationsQueue` maps a location index to its list of containers.
-/

/-- `PLCOrder` (identity plus the fields used by the verified operations:
candidate selection, the order-cycle `Finishing` step and the queue-order
construction).  Defaults mirror the Python class attribute defaults. -/
structure PLCOrder where
  uid : Nat
  uniqueId : String := ""
  partType : String := ""
  partSizeX : Int := 0
  partSizeY : Int := 0
  partSizeZ : Int := 0
  partWeight : Int := 0
  partPackingId : Int := 0
  orderNumber : Int := 0
  robotName : String := ""
  pickLocationIndex : Int := 0
  pickContainerId : String := ""
  pickContainerType : String := ""
  placeLocationIndex : Int := 0
  placeContainerId : String := ""
  placeContainerType : String := ""
  inputPartIndex : Int := 0
  packFormationComputationName : String := ""
  ignoreFinishPosition : Bool := false
  pickContainer : Option Nat := none
  placeContainer : Option Nat := none
  finishOrderFinishCode : Int := 0
deriving Repr, DecidableEq

/-- `PLCContainer` (identity plus the fields used here). -/
structure PLCContainer where
  uid : Nat
  locationIndex : Int := 0
  containerId : String := ""
  containerType : String := ""
  orders : List Nat := []
deriving Repr, DecidableEq

/-- The `nextContainerAtPickLocation` / `nextContainerAtPlaceLocation`
computation in `_ListOrderCandidates`: `None` on an empty queue, else the
head — unless the head's `orders` list equals `[currentOrder]` (Python
list `==` with identity element comparison), in which case
`queue[1] if len(queue) > 1 else None`. -/
def nextContainerOnQueue (queue : List PLCContainer) (currentUid : Option Nat) :
    Option PLCContainer :=
  match queue with
  | [] => none
  | head :: rest =>
    if (match currentUid with
        | some c => head.orders == [c]
        | none => false) then rest.head?
    else some head

/-- The keep-condition of the first loop of `_ListOrderCandidates`:
skip the current order itself (`order is currentOrder`), then require the
pick container and the place container to be the next container at their
respective location queues (`is` comparison of the container references,
with `None is None` true). -/
def candidateFilter (locationsQueue : Int → List PLCContainer)
    (currentOrder : Option PLCOrder) (order : PLCOrder) : Bool :=
  (match currentOrder with
   | some cur => order.uid != cur.uid
   | none => true) &&
  ((nextContainerOnQueue (locationsQueue order.pickLocationIndex)
      (currentOrder.map PLCOrder.uid)).map PLCContainer.uid == order.pickContainer) &&
  ((nextContainerOnQueue (locationsQueue order.placeLocationIndex)
      (currentOrder.map PLCOrder.uid)).map PLCContainer.uid == order.placeContainer)

/-- One step of the second loop of `_ListOrderCandidates`: the
`if/elif/elif/else` chain appending the order to `availableCandidates`,
`pickableCandidates`, `placeableCandidates` or `unavailableCandidates`. -/
def rankStep (cur : PLCOrder)
    (acc : List PLCOrder × List PLCOrder × List PLCOrder × List PLCOrder)
    (order : PLCOrder) :
    List PLCOrder × List PLCOrder × List PLCOrder × List PLCOrder :=
  if order.pickLocationIndex != cur.pickLocationIndex &&
     order.placeLocationIndex != cur.placeLocationIndex then
    (acc.1 ++ [order], acc.2.1, acc.2.2.1, acc.2.2.2)
  else if order.pickLocationIndex != cur.pickLocationIndex then
    (acc.1, acc.2.1 ++ [order], acc.2.2.1, acc.2.2.2)
  else if order.placeLocationIndex != cur.placeLocationIndex then
    (acc.1, acc.2.1, acc.2.2.1 ++ [order], acc.2.2.2)
  else
    (acc.1, acc.2.1, acc.2.2.1, acc.2.2.2 ++ [order])

/-- `PLCProductionCycle._ListOrderCandidates`. -/
def listOrderCandidates (ordersQueue : List PLCOrder)
    (locationsQueue : Int → List PLCContainer)
    (currentOrder : Option PLCOrder) : List PLCOrder :=
  let candidates := ordersQueue.filter (candidateFilter locationsQueue currentOrder)
  match currentOrder with
  | none => candidates
  | some cur =>
    let part := candidates.foldl (rankStep cur) ([], [], [], [])
    part.1 ++ part.2.1 ++ part.2.2.1 ++ part.2.2.2

/-- `PLCProductionCycle._GetOrderCandidate`: the first candidate, or
`None` when the list is empty. -/
def getOrderCandidate (ordersQueue : List PLCOrder)
    (locationsQueue : Int → List PLCContainer)
    (currentOrder : Option PLCOrder) : Option PLCOrder :=
  (listOrderCandidates ordersQueue locationsQueue currentOrder).head?

/-- Spec §4.5.6, "next" container: the head container, unless the head's
`orders` list equals exactly `[currentOrder]` — in which case the second
container (or none). -/
def specNextContainer (queue : List PLCContainer) (currentUid : Option Nat) :
    Option PLCContainer :=
  match queue, currentUid with
  | [], _ => none
  | head :: rest, some c => if head.orders = [c] then rest.head? else some head
  | head :: _, none => some head

/-- Spec §4.5.6 keep-condition, amended to exclude `currentOrder` itself:
the order's pick- and place-containers are each the "next" container at
their location queues. -/
def specKeeps (locationsQueue : Int → List PLCContainer)
    (currentOrder : Option PLCOrder) (order : PLCOrder) : Bool :=
  currentOrder.all (fun cur => order.uid != cur.uid) &&
  ((specNextContainer (locationsQueue order.pickLocationIndex)
      (currentOrder.map PLCOrder.uid)).map PLCContainer.uid == order.pickContainer) &&
  ((specNextContainer (locationsQueue order.placeLocationIndex)
      (currentOrder.map PLCOrder.uid)).map PLCContainer.uid == order.placeContainer)

/-- Spec §4.5.6 ranking: 0 when both locations differ from the current
order's, 1 when only the pick location differs, 2 when only the place
location differs, 3 when neither differs. -/
def specRank (cur order : PLCOrder) : Nat :=
  if order.pickLocationIndex ≠ cur.pickLocationIndex then
    if order.placeLocationIndex ≠ cur.placeLocationIndex then 0 else 1
  else
    if order.placeLocationIndex ≠ cur.placeLocationIndex then 2 else 3

/-- Spec §4.5.6 candidate list: the kept orders, ranked by `specRank` when
a current order is given (stable within each rank class). -/
def specListOrderCandidates (ordersQueue : List PLCOrder)
    (locationsQueue : Int → List PLCContainer)
    (currentOrder : Option PLCOrder) : List PLCOrder :=
  let kept := ordersQueue.filter (specKeeps locationsQueue currentOrder)
  match currentOrder with
  | none => kept
  | some cur =>
    (kept.filter fun o => specRank cur o == 0) ++
    (kept.filter fun o => specRank cur o == 1) ++
    (kept.filter fun o => specRank cur o == 2) ++
    (kept.filter fun o => specRank cur o == 3)

theorem nextContainerOnQueue_eq_spec (queue : List PLCContainer)
    (currentUid : Option Nat) :
    nextContainerOnQueue queue currentUid = specNextContainer queue currentUid := by
  cases queue with
  | nil => cases currentUid <;> rfl
  | cons head rest =>
    cases currentUid with
    | none => simp [nextContainerOnQueue, specNextContainer]
    | some c =>
      simp only [nextContainerOnQueue, specNextContainer]
      by_cases h : head.orders = [c]
      · simp [h]
      · simp [h]

theorem candidateFilter_eq_specKeeps (locationsQueue : Int → List PLCContainer)
    (currentOrder : Option PLCOrder) (order : PLCOrder) :
    candidateFilter locationsQueue currentOrder order =
      specKeeps locationsQueue currentOrder order := by
  cases currentOrder with
  | none => simp [candidateFilter, specKeeps, nextContainerOnQueue_eq_spec]
  | some cur => simp [candidateFilter, specKeeps, nextContainerOnQueue_eq_spec,
      Option.all]

/-- The accumulator fold of the ranking loop equals four stable filters. -/
theorem rankFold_eq (cur : PLCOrder) (l av pk pl un : List PLCOrder) :
    l.foldl (rankStep cur) (av, pk, pl, un) =
      (av ++ l.filter fun o => o.pickLocationIndex != cur.pickLocationIndex &&
         o.placeLocationIndex != cur.placeLocationIndex,
       pk ++ l.filter fun o => o.pickLocationIndex != cur.pickLocationIndex &&
         !(o.placeLocationIndex != cur.placeLocationIndex),
       pl ++ l.filter fun o => !(o.pickLocationIndex != cur.pickLocationIndex) &&
         o.placeLocationIndex != cur.placeLocationIndex,
       un ++ l.filter fun o => !(o.pickLocationIndex != cur.pickLocationIndex) &&
         !(o.placeLocationIndex != cur.placeLocationIndex)) := by
  induction l generalizing av pk pl un with
  | nil => simp
  | cons h t ih =>
    simp only [List.foldl_cons, List.filter_cons]
    cases hA : h.pickLocationIndex != cur.pickLocationIndex <;>
      cases hB : h.placeLocationIndex != cur.placeLocationIndex <;>
        simp [rankStep, hA, hB, ih, List.append_assoc]

/-- C6 (amended): `_ListOrderCandidates(currentOrder)` returns exactly the
queued orders, other than `currentOrder` itself, whose pick and place
containers are each the "next" container at their location queues, ranked
(when `currentOrder` is given) by how many of their two locations differ
from the current order's; `_GetOrderCandidate` returns the first of that
list, or none. -/
theorem listOrderCandidates_matches_spec (ordersQueue : List PLCOrder)
    (locationsQueue : Int → List PLCContainer)
    (currentOrder : Option PLCOrder) :
    listOrderCandidates ordersQueue locationsQueue currentOrder =
      specListOrderCandidates ordersQueue locationsQueue currentOrder ∧
    getOrderCandidate ordersQueue locationsQueue currentOrder =
      (specListOrderCandidates ordersQueue locationsQueue currentOrder).head? := by
  have hfilter : ordersQueue.filter (candidateFilter locationsQueue currentOrder) =
      ordersQueue.filter (specKeeps locationsQueue currentOrder) := by
    have : candidateFilter locationsQueue currentOrder =
        specKeeps locationsQueue currentOrder := by
      funext o
      exact candidateFilter_eq_specKeeps locationsQueue currentOrder o
    rw [this]
  have hmain : listOrderCandidates ordersQueue locationsQueue currentOrder =
      specListOrderCandidates ordersQueue locationsQueue currentOrder := by
    cases currentOrder with
    | none =>
      simpa [listOrderCandidates, specListOrderCandidates] using hfilter
    | some cur =>
      have h0 : (ordersQueue.filter (specKeeps locationsQueue (some cur))).filter
          (fun o => o.pickLocationIndex != cur.pickLocationIndex &&
            o.placeLocationIndex != cur.placeLocationIndex) =
          (ordersQueue.filter (specKeeps locationsQueue (some cur))).filter
            (fun o => specRank cur o == 0) := by
        apply List.filter_congr
        intro o _
        simp only [specRank]
        by_cases hA : o.pickLocationIndex = cur.pickLocationIndex <;>
          by_cases hB : o.placeLocationIndex = cur.placeLocationIndex <;>
            simp [hA, hB]
      have h1 : (ordersQueue.filter (specKeeps locationsQueue (some cur))).filter
          (fun o => o.pickLocationIndex != cur.pickLocationIndex &&
            !(o.placeLocationIndex != cur.placeLocationIndex)) =
          (ordersQueue.filter (specKeeps locationsQueue (some cur))).filter
            (fun o => specRank cur o == 1) := by
        apply List.filter_congr
        intro o _
        simp only [specRank]
        by_cases hA : o.pickLocationIndex = cur.pickLocationIndex <;>
          by_cases hB : o.placeLocationIndex = cur.placeLocationIndex <;>
            simp [hA, hB]
      have h2 : (ordersQueue.filter (specKeeps locationsQueue (some cur))).filter
          (fun o => !(o.pickLocationIndex != cur.pickLocationIndex) &&
            o.placeLocationIndex != cur.placeLocationIndex) =
          (ordersQueue.filter (specKeeps locationsQueue (some cur))).filter
            (fun o => specRank cur o == 2) := by
        apply List.filter_congr
        intro o _
        simp only [specRank]
        by_cases hA : o.pickLocationIndex = cur.pickLocationIndex <;>
          by_cases hB : o.placeLocationIndex = cur.placeLocationIndex <;>
            simp [hA, hB]
      have h3 : (ordersQueue.filter (specKeeps locationsQueue (some cur))).filter
          (fun o => !(o.pickLocationIndex != cur.pickLocationIndex) &&
            !(o.placeLocationIndex != cur.placeLocationIndex)) =
          (ordersQueue.filter (specKeeps locationsQueue (some cur))).filter
            (fun o => specRank cur o == 3) := by
        apply List.filter_congr
        intro o _
        simp only [specRank]
        by_cases hA : o.pickLocationIndex = cur.pickLocationIndex <;>
          by_cases hB : o.placeLocationIndex = cur.placeLocationIndex <;>
            simp [hA, hB]
      simp only [listOrderCandidates, specListOrderCandidates, hfilter,
        rankFold_eq, List.nil_append, h0, h1, h2, h3]
  exact ⟨hmain, by rw [getOrderCandidate, hmain]⟩

/-- The current order of the C6 counterexample: both its containers sit at
the head of their location queues and are used by a second order, so the
head is not about to be consumed. -/
def cexCurrentOrder : PLCOrder :=
  { uid := 1, pickLocationIndex := 1, placeLocationIndex := 2,
    pickContainer := some 10, placeContainer := some 11 }

/-- The C6 counterexample location queues. -/
def cexLocationsQueue : Int → List PLCContainer := fun i =>
  if i = 1 then [{ uid := 10, locationIndex := 1, orders := [1, 2] }]
  else if i = 2 then [{ uid := 11, locationIndex := 2, orders := [1, 2] }]
  else []

/-- C6 counterexample: the claim says `_ListOrderCandidates(currentOrder)`
keeps **exactly** the queued orders whose pick and place containers are
each the "next" container at their location queues.  `cexCurrentOrder`
itself satisfies that condition (its containers are the heads, and neither
head's orders list is exactly `[currentOrder]`), yet the code skips
`order is currentOrder` and returns the empty list. -/
theorem listOrderCandidates_excludes_current :
    (specNextContainer (cexLocationsQueue cexCurrentOrder.pickLocationIndex)
        (some cexCurrentOrder.uid)).map PLCContainer.uid =
      cexCurrentOrder.pickContainer ∧
    (specNextContainer (cexLocationsQueue cexCurrentOrder.placeLocationIndex)
        (some cexCurrentOrder.uid)).map PLCContainer.uid =
      cexCurrentOrder.placeContainer ∧
    cexCurrentOrder ∈ [cexCurrentOrder] ∧
    listOrderCandidates [cexCurrentOrder] cexLocationsQueue
      (some cexCurrentOrder) = [] := by
  refine ⟨by decide, by decide, by decide, by decide⟩

/-- C10: a candidate produced with a non-null `currentOrder` hint is never
the current order itself — `_ListOrderCandidates` skips it
(`order is currentOrder: continue`), so `_GetOrderCandidate` cannot return
it and the preparation cycle never selects the running order. -/
theorem candidate_never_current (ordersQueue : List PLCOrder)
    (locationsQueue : Int → List PLCContainer) (cur o : PLCOrder) :
    (o ∈ listOrderCandidates ordersQueue locationsQueue (some cur) →
      o.uid ≠ cur.uid) ∧
    (getOrderCandidate ordersQueue locationsQueue (some cur) = some o →
      o.uid ≠ cur.uid) := by
  have hmem : o ∈ listOrderCandidates ordersQueue locationsQueue (some cur) →
      o.uid ≠ cur.uid := by
    intro hm
    simp only [listOrderCandidates, rankFold_eq, List.nil_append,
      List.mem_append] at hm
    have hcand : o ∈ ordersQueue.filter
        (candidateFilter locationsQueue (some cur)) := by
      rcases hm with ((h | h) | h) | h <;> exact (List.mem_filter.mp h).1
    rw [List.mem_filter] at hcand
    have hflt := hcand.2
    simp only [candidateFilter, Bool.and_eq_true, bne_iff_ne] at hflt
    exact hflt.1.1
  refine ⟨hmem, fun hget => ?_⟩
  apply hmem
  unfold getOrderCandidate at hget
  exact List.mem_of_mem_head? (Option.mem_def.mpr hget)

/-- Orders and containers witnessing C10: `witnessOther` is selectable
while `cexCurrentOrder` runs. -/
def witnessOther : PLCOrder :=
  { uid := 2, pickLocationIndex := 3, placeLocationIndex := 4,
    pickContainer := some 20, placeContainer := some 21 }

def witnessLocationsQueue : Int → List PLCContainer := fun i =>
  if i = 1 then [{ uid := 10, locationIndex := 1, orders := [1] }]
  else if i = 2 then [{ uid := 11, locationIndex := 2, orders := [1] }]
  else if i = 3 then [{ uid := 20, locationIndex := 3, orders := [2] }]
  else if i = 4 then [{ uid := 21, locationIndex := 4, orders := [2] }]
  else []

/-- C10 witness: with the current order and one other queued order, the
selected candidate is the other order, whose identity differs from the
current order's. -/
theorem candidate_never_current_witness :
    witnessOther.uid ≠ cexCurrentOrder.uid :=
  (candidate_never_current [cexCurrentOrder, witnessOther]
    witnessLocationsQueue cexCurrentOrder witnessOther).2 (by decide)

/-!
## Order-cycle `Finishing` state (`plcproductioncycle.py`)

The `if self._IsOrderCycleState(PLCOrderCycleState.Finishing)` block:
clear `startFinishOrder`; once `isRunningFinishOrder` is false, read
`finishOrderFinishCode` into the order; on non-Success go to `Error`
leaving all queues untouched; on Success remove the order from
`_ordersQueue` (`list.remove`, first occurrence) and from
`pickContainer.orders` and `placeContainer.orders` (each guarded by the
reference being non-None; when pick and place are the same container the
order is removed from its list twice), then go to `Finished`.
-/

/-- `PLCOrderCycleState`. -/
inductive PLCOrderCycleState where
  | Idle | Resetting | Starting | Running | Finish | Finishing | Finished
  | Stopping | Stopped | Error
deriving Repr, DecidableEq

/-- Result of one execution of the `Finishing` block: the order-cycle
state, the (possibly updated) order, the orders queue, the container heap
and the signals written. -/
structure FinishingResult where
  orderCycleState : PLCOrderCycleState
  order : PLCOrder
  ordersQueue : List Nat
  containers : List PLCContainer
  writes : List (String × Value)
deriving Repr, DecidableEq

/-- The `Finishing` block of `_RunOrderCycleStateMachine`, reading the
planner signals from the controller snapshot `get`.
`PLCFinishOrderFinishCode.Success = 0x0001`. -/
def runOrderCycleFinishing (get : Entries) (order : PLCOrder)
    (ordersQueue : List Nat) (containers : List PLCContainer) : FinishingResult :=
  let writes := [("startFinishOrder", Value.boolean false)]
  if getBoolean get "isRunningFinishOrder" false then
    ⟨.Finishing, order, ordersQueue, containers, writes⟩
  else
    let code := getInteger get "finishOrderFinishCode" 0
    let order := { order with finishOrderFinishCode := code }
    if code != 1 then
      ⟨.Error, order, ordersQueue, containers, writes⟩
    else
      let ordersQueue := ordersQueue.erase order.uid
      let containers := containers.map fun c =>
        let os := if order.pickContainer == some c.uid then
          c.orders.erase order.uid else c.orders
        let os := if order.placeContainer == some c.uid then
          os.erase order.uid else os
        { c with orders := os }
      ⟨.Finished, order, ordersQueue, containers, writes⟩

/-- C7: in `Finishing`, once `isRunningFinishOrder` is false, a
non-Success `finishOrderFinishCode` sends the order cycle to `Error` with
`ordersQueue` and every container's orders list unchanged, while Success
removes the finished order from `ordersQueue` and from its pick and place
containers' orders lists and goes to `Finished`, after which the order is
in no queue and referenced by no container.  The hypotheses are the heap
invariants maintained by the queue-order machine: the order occurs at most
once in `ordersQueue`, and each container references it exactly as many
times as it plays a role (pick and/or place) for that container. -/
theorem finishing_removes_order (get : Entries) (order : PLCOrder)
    (ordersQueue : List Nat) (containers : List PLCContainer)
    (hrun : getBoolean get "isRunningFinishOrder" false = false)
    (hqueue : ordersQueue.count order.uid ≤ 1)
    (hcont : ∀ c ∈ containers, c.orders.count order.uid =
      (if order.pickContainer = some c.uid then 1 else 0) +
      (if order.placeContainer = some c.uid then 1 else 0)) :
    (getInteger get "finishOrderFinishCode" 0 ≠ 1 →
      (runOrderCycleFinishing get order ordersQueue containers).orderCycleState =
        .Error ∧
      (runOrderCycleFinishing get order ordersQueue containers).ordersQueue =
        ordersQueue ∧
      (runOrderCycleFinishing get order ordersQueue containers).containers =
        containers) ∧
    (getInteger get "finishOrderFinishCode" 0 = 1 →
      (runOrderCycleFinishing get order ordersQueue containers).orderCycleState =
        .Finished ∧
      order.uid ∉
        (runOrderCycleFinishing get order ordersQueue containers).ordersQueue ∧
      ∀ c ∈ (runOrderCycleFinishing get order ordersQueue containers).containers,
        order.uid ∉ c.orders) := by
  constructor
  · intro hcode
    have hb : (getInteger get "finishOrderFinishCode" 0 != 1) = true := by
      simpa using hcode
    simp [runOrderCycleFinishing, hrun, hb]
  · intro hcode
    have hb : (getInteger get "finishOrderFinishCode" 0 != 1) = false := by
      simp [hcode]
    refine ⟨by simp [runOrderCycleFinishing, hrun, hb], ?_, ?_⟩
    · simp only [runOrderCycleFinishing, hrun, Bool.false_eq_true, if_false, hb]
      rw [← List.count_pos_iff]
      push_neg
      calc (ordersQueue.erase order.uid).count order.uid
          = ordersQueue.count order.uid - 1 := List.count_erase_self _ _
        _ ≤ 1 - 1 := by omega
        _ = 0 := rfl
    · simp only [runOrderCycleFinishing, hrun, Bool.false_eq_true, if_false, hb]
      intro c hc
      rw [List.mem_map] at hc
      obtain ⟨c0, hc0, rfl⟩ := hc
      have hcount := hcont c0 hc0
      rw [← List.count_pos_iff]
      push_neg
      by_cases hpick : order.pickContainer = some c0.uid <;>
        by_cases hplace : order.placeContainer = some c0.uid <;>
          simp only [hpick, hplace, if_pos, if_neg, beq_iff_eq, reduceIte] <;>
            simp_all [List.count_erase_self, List.count_eq_zero]

/-- Concrete inputs for the C7 witness: a finished order referenced once
by its pick container and once by its place container. -/
def finishGet : Entries := fun k =>
  if k = "finishOrderFinishCode" then some (.integer 1)
  else if k = "isRunningFinishOrder" then some (.boolean false)
  else none

def finishOrder : PLCOrder :=
  { uid := 7, pickLocationIndex := 1, placeLocationIndex := 2,
    pickContainer := some 30, placeContainer := some 31 }

def finishContainers : List PLCContainer :=
  [{ uid := 30, locationIndex := 1, orders := [7] },
   { uid := 31, locationIndex := 2, orders := [7] }]

/-- C7 witness: running the Finishing step on the concrete success input
removes order 7 everywhere and reaches `Finished`. -/
theorem finishing_removes_order_witness :
    (runOrderCycleFinishing finishGet finishOrder [7] finishContainers).orderCycleState =
      PLCOrderCycleState.Finished ∧
    finishOrder.uid ∉
      (runOrderCycleFinishing finishGet finishOrder [7] finishContainers).ordersQueue ∧
    ∀ c ∈ (runOrderCycleFinishing finishGet finishOrder [7] finishContainers).containers,
      finishOrder.uid ∉ c.orders :=
  (finishing_removes_order finishGet finishOrder [7] finishContainers
    (by decide) (by decide) (by decide)).2 (by decide)

/-!
## Main production-cycle state machine (`plcproductioncycle.py`)

`_RunStateMachine` is a chain of guarded non-`elif` blocks, each checking
the *current* state, so one call can chain several transitions.
`_SetState(state, finishCode)` is a no-op when already in `state`,
otherwise it replaces the whole triple (the timestamp, used only for
logging, is not modelled).  `PLCProductionCycleFinishCode`:
`NotAvailable = 0`, `Success = 1`, `GenericError = 0xffff`.
-/

inductive PLCProductionCycleState where
  | Idle | Starting | Running | Stopping | Stopped
deriving Repr, DecidableEq

inductive PLCPreparationCycleState where
  | Idle | Resetting | Starting | Running | Stopping | Stopped
deriving Repr, DecidableEq

inductive PLCLocationState where
  | Idle | Move | Moving | Moved | Stopped | Error
deriving Repr, DecidableEq

inductive PLCQueueOrderState where
  | Idle | Running | Succeeded | Disabled
deriving Repr, DecidableEq

/-- The fields of `PLCProductionCycle` read or written by
`_RunStateMachine` (container uids stand in for the container objects of
`_locationsQueue`). -/
structure MainCycleState where
  state : PLCProductionCycleState
  finishCode : Int
  locationIndices : List Int
  ordersQueue : List Nat
  locationsQueue : List (Int × List Nat)
  locationStates : List (Int × PLCLocationState)
  clearStatePerformed : Bool
deriving Repr, DecidableEq

/-- `PLCProductionCycle._SetState`: keep the triple when already in the
target state, else move to it with the supplied finish code
(`NotAvailable = 0` when the argument is omitted in Python). -/
def setMainState (s : MainCycleState) (st : PLCProductionCycleState)
    (finishCode : Int) : MainCycleState :=
  if s.state == st then s else { s with state := st, finishCode := finishCode }

/-- `self._locationStates[locationIndex][0]` (the dictionary always holds
every index of `_locationIndices`; the default is never reached on the
states produced by the machine). -/
def lookupLocationState (s : MainCycleState) (i : Int) : PLCLocationState :=
  (s.locationStates.lookup i).getD .Stopped

/-- `PLCProductionCycle._RunStateMachine`, reading planner signals from
the controller snapshot `get` (the snapshot does not change within one
call: `Set`/`SetMultiple` go to the memory and only reach the snapshot at
the next dequeue).  The sub-machine states are those current for the tick.
Returns the updated state and the signal batches requested, in order. -/
def runMainStateMachine (get : Entries) (s0 : MainCycleState)
    (orderCycleState : PLCOrderCycleState)
    (preparationState : PLCPreparationCycleState)
    (queueOrderState : PLCQueueOrderState) :
    MainCycleState × List (String × Value) :=
  -- Idle block: wait for the startProductionCycle trigger.
  let acc : MainCycleState × List (String × Value) :=
    if s0.state == .Idle then
      let writes := [("isRunningProductionCycle", Value.boolean false)]
      if getBoolean get "startProductionCycle" false &&
         !getBoolean get "stopProductionCycle" false then
        let n := getInteger get "productionCycleMaxLocationIndex" 0
        -- `if productionCycleMaxLocationIndex < 1:` — _SetState(Stopping,
        -- GenericError) and then FALL THROUGH: no return in the source.
        let s := if n < 1 then setMainState s0 .Stopping 65535 else s0
        let locationIndices := (List.range n.toNat).map fun i => ((i : Int) + 1)
        let s := { s with
          locationIndices := locationIndices,
          ordersQueue := [],
          locationsQueue := locationIndices.map fun i => (i, ([] : List Nat)),
          locationStates := locationIndices.map fun i => (i, PLCLocationState.Stopped),
          clearStatePerformed := false }
        (setMainState s .Starting 0, writes)
      else (s0, writes)
    else (s0, [])
  -- Starting block: wait for the trigger to go down.
  let acc : MainCycleState × List (String × Value) :=
    let (s, writes) := acc
    if s.state == .Starting then
      let writes := writes ++
        [("isRunningProductionCycle", Value.boolean true),
         ("productionCycleFinishCode", Value.integer 0)]
      if getBoolean get "stopProductionCycle" false then
        (setMainState s .Stopping 0, writes)
      else if !getBoolean get "startProductionCycle" false then
        (setMainState s .Running 0, writes)
      else (s, writes)
    else (s, writes)
  -- Running block: escalate sub-machine errors, obey stopProductionCycle.
  let acc : MainCycleState × List (String × Value) :=
    let (s, writes) := acc
    if s.state == .Running then
      let writes := writes ++
        [("isRunningProductionCycle", Value.boolean true),
         ("productionCycleFinishCode", Value.integer 0)]
      let hasError := orderCycleState == .Error ||
        s.locationIndices.any fun i => lookupLocationState s i == .Error
      if hasError then (setMainState s .Stopping 65535, writes)
      else if getBoolean get "stopProductionCycle" false then
        (setMainState s .Stopping 1, writes)
      else (s, writes)
    else (s, writes)
  -- Stopping block: wait for every sub-machine to stop.
  let acc : MainCycleState × List (String × Value) :=
    let (s, writes) := acc
    if s.state == .Stopping then
      let fc := s.finishCode
      let writes := writes ++
        [("isRunningProductionCycle", Value.boolean true),
         ("productionCycleFinishCode", Value.integer fc)]
      let allFinished := orderCycleState == .Stopped &&
        preparationState == .Stopped &&
        (s.locationIndices.all fun i => lookupLocationState s i == .Stopped) &&
        queueOrderState == .Disabled
      if allFinished then (setMainState s .Stopped fc, writes) else (s, writes)
    else (s, writes)
  -- Stopped block: wait for stopProductionCycle to go down.
  let (s, writes) := acc
  if s.state == .Stopped then
    let fc := s.finishCode
    let writes := writes ++
      [("isRunningProductionCycle", Value.boolean false),
       ("productionCycleFinishCode", Value.integer fc)]
    if !getBoolean get "stopProductionCycle" false then
      (setMainState s .Idle 0, writes)
    else (s, writes)
  else (s, writes)

/-- The C3 failing input: Idle, `startProductionCycle` true,
`stopProductionCycle` false, `productionCycleMaxLocationIndex` 0. -/
def invalidStartGet : Entries := fun k =>
  if k = "startProductionCycle" then some (.boolean true)
  else if k = "stopProductionCycle" then some (.boolean false)
  else if k = "productionCycleMaxLocationIndex" then some (.integer 0)
  else none

def idleInitialState : MainCycleState :=
  { state := .Idle, finishCode := 0, locationIndices := [], ordersQueue := [],
    locationsQueue := [], locationStates := [], clearStatePerformed := false }

/-- C3 (code bug): with `productionCycleMaxLocationIndex = 0 < 1` the Idle
block calls `_SetState(Stopping, GenericError)` but does not return, so
the same block then calls `_SetState(Starting)`, overwriting the state:
the tick ends in `Starting` with finish code `NotAvailable`, not in
`Stopping(GenericError)` as the claim (and the code's own error log)
require. -/
theorem invalid_max_location_reaches_starting :
    getInteger invalidStartGet "productionCycleMaxLocationIndex" 0 < 1 ∧
    (runMainStateMachine invalidStartGet idleInitialState
      .Idle .Idle .Disabled).1.state = .Starting ∧
    (runMainStateMachine invalidStartGet idleInitialState
      .Idle .Idle .Disabled).1.state ≠ .Stopping ∧
    (runMainStateMachine invalidStartGet idleInitialState
      .Idle .Idle .Disabled).1.finishCode = 0 := by
  refine ⟨by decide, by decide, by decide, by decide⟩

/-!
## Queue-order parameter signals (`plcproductionrunner.py`,
`plcproductioncycle.py`)

`PLCProductionRunner.QueueOrder` publishes the parameter signals with the
`queueOrder` prefix and raises `startQueueOrder`; the queue-order state
machine then constructs a `PLCOrder` by reading them back.  The state
machine's read for `placeContainerType` uses the signal name
`queueOrderPlaceContainerIndex` — not `queueOrderPlaceContainerType`,
which is the signal the runner writes.
-/

/-- `PLCQueueOrderParameters` with its Python class attribute defaults. -/
structure PLCQueueOrderParameters where
  partType : String := ""
  partSizeX : Int := 0
  partSizeY : Int := 0
  partSizeZ : Int := 0
  partWeight : Int := 0
  partPackingId : Int := 0
  orderNumber : Int := 0
  robotName : String := ""
  pickLocationIndex : Int := 0
  pickContainerId : String := ""
  pickContainerType : String := ""
  placeLocationIndex : Int := 0
  placeContainerId : String := ""
  placeContainerType : String := ""
  inputPartIndex : Int := 0
  packFormationComputationName : String := ""
  ignoreFinishPosition : Bool := false
deriving Repr, DecidableEq

/-- The `SetMultiple` batch of `PLCProductionRunner.QueueOrder`. -/
def queueOrderWrites (orderUniqueId : String) (p : PLCQueueOrderParameters) :
    List (String × Value) :=
  [("queueOrderUniqueId", .string orderUniqueId),
   ("queueOrderPartType", .string p.partType),
   ("queueOrderPartSizeX", .integer p.partSizeX),
   ("queueOrderPartSizeY", .integer p.partSizeY),
   ("queueOrderPartSizeZ", .integer p.partSizeZ),
   ("queueOrderPartWeight", .integer p.partWeight),
   ("queueOrderPartPackingId", .integer p.partPackingId),
   ("queueOrderNumber", .integer p.orderNumber),
   ("queueOrderRobotName", .string p.robotName),
   ("queueOrderPickLocationIndex", .integer p.pickLocationIndex),
   ("queueOrderPickContainerId", .string p.pickContainerId),
   ("queueOrderPickContainerType", .string p.pickContainerType),
   ("queueOrderPlaceLocationIndex", .integer p.placeLocationIndex),
   ("queueOrderPlaceContainerId", .string p.placeContainerId),
   ("queueOrderPlaceContainerType", .string p.placeContainerType),
   ("queueOrderInputPartIndex", .integer p.inputPartIndex),
   ("queueOrderPackFormationComputationName", .string p.packFormationComputationName),
   ("queueOrderIgnoreFinishPosition", .boolean p.ignoreFinishPosition),
   ("startQueueOrder", .boolean true)]

/-- The `PLCOrder(...)` construction in `_RunQueueOrderStateMachine`
(Idle state, `startQueueOrder` observed true), reading the parameter
signals from the controller snapshot `get`.  The `placeContainerType`
field reads `queueOrderPlaceContainerIndex`, exactly as in the source. -/
def buildQueueOrder (get : Entries) (uid : Nat) : PLCOrder :=
  { uid := uid,
    uniqueId := getString get "queueOrderUniqueId" "",
    partType := getString get "queueOrderPartType" "",
    partSizeX := getInteger get "queueOrderPartSizeX" 0,
    partSizeY := getInteger get "queueOrderPartSizeY" 0,
    partSizeZ := getInteger get "queueOrderPartSizeZ" 0,
    partWeight := getInteger get "queueOrderPartWeight" 0,
    partPackingId := getInteger get "queueOrderPartPackingId" 0,
    orderNumber := getInteger get "queueOrderNumber" 0,
    robotName := getString get "queueOrderRobotName" "",
    pickLocationIndex := getInteger get "queueOrderPickLocationIndex" 0,
    pickContainerId := getString get "queueOrderPickContainerId" "",
    pickContainerType := getString get "queueOrderPickContainerType" "",
    placeLocationIndex := getInteger get "queueOrderPlaceLocationIndex" 0,
    placeContainerId := getString get "queueOrderPlaceContainerId" "",
    placeContainerType := getString get "queueOrderPlaceContainerIndex" "",
    inputPartIndex := getInteger get "queueOrderInputPartIndex" 0,
    packFormationComputationName :=
      getString get "queueOrderPackFormationComputationName" "",
    ignoreFinishPosition := getBoolean get "queueOrderIgnoreFinishPosition" false }

/-- The C5 failing input: a queue-order request whose place container type
is `"palletA"`. -/
def palletParams : PLCQueueOrderParameters := { placeContainerType := "palletA" }

/-- The memory contents after `QueueOrder("order1", palletParams)`
publishes its parameter batch into an empty memory. -/
def palletEntries : Entries :=
  (writeMem emptyEntries (queueOrderWrites "order1" palletParams)).1

/-- C5 (code bug): the runner writes `"palletA"` to the signal
`queueOrderPlaceContainerType`, but the order constructed by the
queue-order state machine reads the misspelled signal
`queueOrderPlaceContainerIndex` (never written, so `GetString` yields
`""`): the appended order's `placeContainerType` is `""`, not the value
the runner published. -/
theorem queueOrder_placeContainerType_lost :
    palletParams.placeContainerType = "palletA" ∧
    getString palletEntries "queueOrderPlaceContainerType" "" = "palletA" ∧
    (buildQueueOrder palletEntries 1).placeContainerType = "" ∧
    (buildQueueOrder palletEntries 1).placeContainerType ≠
      palletParams.placeContainerType := by
  refine ⟨rfl, by decide, by decide, by decide⟩

end MujinPLC
